import Mathlib

/-!
Verification development for the MfxVTK plugin
(src/mfx_vtk_plugin/mfx_vtk_plugin.cpp).

The file shallowly embeds the pure computational core of the plugin:
the identity fast-path predicates (`is_positive_double` and the three
`vtkIsIdentity` overrides), the auto-simplify branch of the volume point
sampler, and the rejection-sampling loop of
`VtkVolumePointSamplerEffect::vtkCook_inner`.  C++ doubles are embedded
as exact rationals; the external VTK collaborators (the implicit signed
distance function, the pseudo-random stream of
`vtkMinimalStandardRandomSequence`, the triangulation and decimation
kernels) enter as explicit parameters of the embedded functions, so the
theorems quantify over their behavior.
-/

namespace MfxVtk

/-- Machine epsilon of an IEEE-754 double (`DBL_EPSILON` from `<cfloat>`),
as an exact rational: 2^(-52). -/
def DBL_EPSILON : ℚ := 1 / 2 ^ 52

/-- mfx_vtk_plugin.cpp, lines 57-59:
`bool is_positive_double(double x) { return x >= DBL_EPSILON; }`.
Comparison of finite doubles agrees with the rational order, so the
embedding uses the exact rational comparison. -/
def is_positive_double (x : ℚ) : Bool :=
  decide (DBL_EPSILON ≤ x)

/-- mfx_vtk_plugin.cpp, lines 640-643, `VtkDecimateProEffect::vtkIsIdentity`:
returns `not is_positive_double(target_reduction)`. -/
def vtkIsIdentity_decimate_pro (target_reduction : ℚ) : Bool :=
  !is_positive_double target_reduction

/-- mfx_vtk_plugin.cpp, lines 701-704, `VtkQuadricDecimationEffect::vtkIsIdentity`:
returns `not is_positive_double(target_reduction)`. -/
def vtkIsIdentity_quadric_decimation (target_reduction : ℚ) : Bool :=
  !is_positive_double target_reduction

/-- mfx_vtk_plugin.cpp, lines 830-834, `VtkFillHolesEffect::vtkIsIdentity`:
returns `not is_positive_double(hole_size)`. -/
def vtkIsIdentity_fill_holes (hole_size : ℚ) : Bool :=
  !is_positive_double hole_size

/-- mfx_vtk_plugin.cpp, line 284: the auto-simplify branch of
`VtkVolumePointSamplerEffect::vtkCook_inner` is entered iff
`auto_simplify && input_polydata->GetNumberOfPolys() > 100`. -/
def autoSimplifyTriggered (auto_simplify : Bool) (number_of_polys : ℕ) : Bool :=
  auto_simplify && decide (100 < number_of_polys)

/-- mfx_vtk_plugin.cpp, line 294:
`int target_polycount = 1000 + static_cast<int>(std::sqrt(input_polycount));`.
For every face count representable as a C `int`, the truncating cast of the
correctly-rounded double square root equals `Nat.sqrt` (the integer square
root), so the embedding uses `Nat.sqrt`. -/
def target_polycount (input_polycount : ℕ) : ℤ :=
  1000 + (Nat.sqrt input_polycount : ℤ)

/-- mfx_vtk_plugin.cpp, line 295:
`double target_reduction = static_cast<double>(target_polycount) / input_polycount;`. -/
def target_reduction (input_polycount : ℕ) : ℚ :=
  (target_polycount input_polycount : ℚ) / (input_polycount : ℚ)

/-- Which mesh the signed-distance predicate is built from: the result of
quadric decimation configured with the given reduction parameter, or the
original input mesh. -/
inductive PredicateSource where
  | simplified (reduction : ℚ)
  | original
deriving DecidableEq, Repr

/-- mfx_vtk_plugin.cpp, lines 284-308: the choice of input for
`vtkImplicitPolyDataDistance`.  `number_of_polys` is the polygon count of
the input mesh, `triangulated_polys` the polygon count after
`vtkTriangleFilter`.  Inside the branch, the mesh is decimated with
`SetTargetReduction(target_reduction)` only when `target_reduction < 1`;
otherwise (and when the branch is not entered) the predicate is built from
the original input mesh. -/
def predicateSource (auto_simplify : Bool) (number_of_polys triangulated_polys : ℕ) :
    PredicateSource :=
  if autoSimplifyTriggered auto_simplify number_of_polys then
    if target_reduction triangulated_polys < 1 then
      PredicateSource.simplified (target_reduction triangulated_polys)
    else
      PredicateSource.original
  else
    PredicateSource.original

/-- Spec-side definition of the target face count, following the
specification words literally: `1000 + round(sqrt(faceCount))`, with
`round` the rounding to the nearest integer of the real square root.
Used only to compare the spec's claim against the source's
`target_polycount`. -/
noncomputable def spec_target_polycount (n : ℕ) : ℤ :=
  1000 + round (Real.sqrt n)

/-- Claim C10: the identity checks of Decimate (pro), Decimate (quadric) and
Fill holes return true exactly when the controlling parameter is strictly
below `DBL_EPSILON` — including small positive values such as 10^(-20) and
negative values — and false exactly when the parameter is at least
`DBL_EPSILON`. -/
theorem is_identity_epsilon_threshold :
    (∀ x : ℚ, vtkIsIdentity_decimate_pro x = true ↔ x < DBL_EPSILON) ∧
    (∀ x : ℚ, vtkIsIdentity_quadric_decimation x = true ↔ x < DBL_EPSILON) ∧
    (∀ x : ℚ, vtkIsIdentity_fill_holes x = true ↔ x < DBL_EPSILON) ∧
    (∀ x : ℚ, vtkIsIdentity_decimate_pro x = false ↔ DBL_EPSILON ≤ x) ∧
    vtkIsIdentity_decimate_pro (1 / 10 ^ 20) = true ∧
    vtkIsIdentity_quadric_decimation (-1) = true ∧
    vtkIsIdentity_fill_holes DBL_EPSILON = false := by
  have key : ∀ x : ℚ, (!is_positive_double x) = true ↔ x < DBL_EPSILON := by
    intro x
    simp [is_positive_double, not_le]
  refine ⟨key, key, key, ?_, ?_, ?_, ?_⟩
  · intro x
    simp [vtkIsIdentity_decimate_pro, is_positive_double]
  · rw [vtkIsIdentity_decimate_pro, key]
    rw [DBL_EPSILON]
    norm_num
  · rw [vtkIsIdentity_quadric_decimation, key]
    rw [DBL_EPSILON]
    norm_num
  · simp [vtkIsIdentity_fill_holes, is_positive_double]

/-- Counterexample to claim C3 as stated: the source truncates the square
root (`static_cast<int>`), it does not round it.  For a triangulated face
count of 120 (which does trigger the auto-simplify branch), the source
computes `1000 + trunc(sqrt 120) = 1010`, while the claim's formula
`1000 + round(sqrt 120)` gives 1011. -/
theorem autosimplify_round_counterexample :
    autoSimplifyTriggered true 120 = true ∧
    target_polycount 120 = 1010 ∧
    spec_target_polycount 120 = 1011 ∧
    target_polycount 120 ≠ spec_target_polycount 120 := by
  have h1 : (21 / 2 : ℝ) ≤ Real.sqrt 120 := by
    rw [Real.le_sqrt (by norm_num) (by norm_num)]
    norm_num
  have h2 : Real.sqrt 120 < 23 / 2 := by
    rw [Real.sqrt_lt' (by norm_num)]
    norm_num
  have hround : round (Real.sqrt 120) = 11 := by
    rw [round_eq, Int.floor_eq_iff]
    constructor
    · push_cast
      linarith
    · push_cast
      linarith
  have hspec : spec_target_polycount 120 = 1011 := by
    show 1000 + round (Real.sqrt (120 : ℕ)) = 1011
    norm_num [hround]
  have h120 : Nat.sqrt 120 = 10 := (Nat.eq_sqrt.mpr (by norm_num)).symm
  have hcode : target_polycount 120 = 1010 := by
    rw [target_polycount, h120]
    decide
  refine ⟨by decide, hcode, hspec, ?_⟩
  rw [hcode, hspec]
  decide

/-- Claim C3 (amended): with autoSimplify enabled, the simplification branch
is triggered only for strictly more than 100 polygonal faces (exactly 100
never triggers it), and the target face count is
`1000 + ⌊sqrt(triangulatedFaceCount)⌋`, the floor (truncation) of the real
square root, not its rounding. -/
theorem autosimplify_threshold_floor :
    (∀ auto_simplify : Bool, autoSimplifyTriggered auto_simplify 100 = false) ∧
    autoSimplifyTriggered true 101 = true ∧
    autoSimplifyTriggered false 101 = false ∧
    (∀ auto_simplify : Bool, ∀ m : ℕ,
      predicateSource auto_simplify 100 m = PredicateSource.original) ∧
    (∀ m : ℕ, target_polycount m = 1000 + ⌊Real.sqrt m⌋) := by
  refine ⟨by decide, by decide, by decide, ?_, ?_⟩
  · intro auto m
    have h : autoSimplifyTriggered auto 100 = false := by
      cases auto <;> decide
    simp [predicateSource, h]
  · intro m
    rw [Real.floor_real_sqrt_eq_nat_sqrt]
    rfl

/-- Claim C4, evaluated at the failing input (code bug): for a triangulated
boundary of 1,000,000 faces the source computes a target face count of 2000
but configures the quadric decimation with
`SetTargetReduction(2000/1000000) = 1/500`.  A target reduction is the
fraction of faces to remove, so this configuration removes only 0.2% of
the faces and keeps `(1 - 1/500) * 1000000 = 998000` faces — nowhere near
the 2000-face target the claim (and the spec's intent) describes; reaching
the target would need a reduction of `1 - 1/500`. -/
theorem autosimplify_reduction_misconfigured :
    target_polycount 1000000 = 2000 ∧
    target_reduction 1000000 = 1 / 500 ∧
    predicateSource true 1000000 1000000 = PredicateSource.simplified (1 / 500) ∧
    (1 - target_reduction 1000000) * 1000000 = 998000 ∧
    (1 - 1 / 500 : ℚ) * 1000000 ≠ 2000 := by
  have hsqrt : Nat.sqrt 1000000 = 1000 := (Nat.eq_sqrt.mpr (by norm_num)).symm
  have h1 : target_polycount 1000000 = 2000 := by
    rw [target_polycount, hsqrt]
    decide
  have h2 : target_reduction 1000000 = 1 / 500 := by
    rw [target_reduction, h1]
    norm_num
  refine ⟨h1, h2, ?_, by rw [h2]; norm_num, by norm_num⟩
  rw [predicateSource]
  have htrig : autoSimplifyTriggered true 1000000 = true := by decide
  rw [htrig, if_pos rfl, h2]
  norm_num

/-- A 3D point with exact rational coordinates (embedding of a `double[3]`). -/
abbrev Point := ℚ × ℚ × ℚ

/-- The axis-aligned bounding box retrieved by
`input_polydata->GetBounds(bounds)` (mfx_vtk_plugin.cpp, lines 279-280):
`bounds = {xmin, xmax, ymin, ymax, zmin, zmax}`. -/
structure Bounds where
  xmin : ℚ
  xmax : ℚ
  ymin : ℚ
  ymax : ℚ
  zmin : ℚ
  zmax : ℚ
deriving DecidableEq, Repr

/-- A well-formed bounding box: minimum at most maximum on every axis. -/
def validBounds (b : Bounds) : Prop :=
  b.xmin ≤ b.xmax ∧ b.ymin ≤ b.ymax ∧ b.zmin ≤ b.zmax

/-- Membership of a point in the bounding box. -/
def inBounds (b : Bounds) (p : Point) : Prop :=
  b.xmin ≤ p.1 ∧ p.1 ≤ b.xmax ∧
  b.ymin ≤ p.2.1 ∧ p.2.1 ≤ b.ymax ∧
  b.zmin ≤ p.2.2 ∧ p.2.2 ≤ b.zmax

/-- Status codes of the Open Mesh Effect ABI (ofxCore.h): `vtkCook_inner`
only ever returns `kOfxStatOK`. -/
inductive OfxStatus where
  | kOfxStatOK
  | kOfxStatFailed
deriving DecidableEq, Repr

/-- Modelled from the spec: `AdditiveRecurrence<3>` lives in utils.h, which
is not part of the sources under verification; spec section 4.5 step 3
describes it as a deterministic low-discrepancy 3-dimensional
additive-recurrence sequence, one irrational increment per dimension,
wrapped modulo 1.  `Next()` adds the per-dimension increment `alpha` and
wraps each component into [0, 1) (the irrational increments are abstracted
as arbitrary rationals `alpha`, kept as an explicit parameter). -/
def arNext (alpha s : Point) : Point :=
  (Int.fract (s.1 + alpha.1), Int.fract (s.2.1 + alpha.2.1), Int.fract (s.2.2 + alpha.2.2))

/-- Modelled from the spec: `GetRangeValue(i, low, high)` of the generators
maps the current value `u` in [0, 1] into the bounding-box interval
`[low, high]` per axis (spec section 4.5 step 3). -/
def rangeValue (low high u : ℚ) : ℚ :=
  low + u * (high - low)

/-- Combined state of the two candidate generators instantiated by
`vtkCook_inner` (mfx_vtk_plugin.cpp, lines 322-323): the current triple of
the `AdditiveRecurrence<3>` and the position in the abstract value stream
of the `vtkMinimalStandardRandomSequence`. -/
abbrev GenState := Point × ℕ

/-- mfx_vtk_plugin.cpp, lines 324-341: one loop iteration draws
`x = get_random_uniform(0, bounds[0], bounds[1])`,
`y = get_random_uniform(1, bounds[2], bounds[3])`,
`z = get_random_uniform(2, bounds[4], bounds[5])`.
`get_random_uniform` advances the selected generator (`Next()`) and then
reads its range value.  With `distribute_uniformly` the additive
recurrence is advanced once per call and the component `i` of its state is
read; otherwise one fresh value of the VTK pseudo-random stream
(abstracted as `vtkStream : ℕ → ℚ`, its values in [0, 1]) is consumed per
call. -/
def drawCandidate (distribute_uniformly : Bool) (b : Bounds) (alpha : Point)
    (vtkStream : ℕ → ℚ) (g : GenState) : Point × GenState :=
  if distribute_uniformly then
    let s1 := arNext alpha g.1
    let s2 := arNext alpha s1
    let s3 := arNext alpha s2
    ((rangeValue b.xmin b.xmax s1.1,
      rangeValue b.ymin b.ymax s2.2.1,
      rangeValue b.zmin b.zmax s3.2.2),
     (s3, g.2))
  else
    ((rangeValue b.xmin b.xmax (vtkStream g.2),
      rangeValue b.ymin b.ymax (vtkStream (g.2 + 1)),
      rangeValue b.zmin b.zmax (vtkStream (g.2 + 2))),
     (g.1, g.2 + 3))

/-- State of the rejection loop of `vtkCook_inner` when it exits:
accepted count `i`, attempt count `t` (`iteration_count`), generator
state, and the two preallocated output arrays. -/
structure LoopResult (G : Type) where
  i : ℕ
  t : ℕ
  g : G
  pts : List Point
  dists : List ℚ

/-- mfx_vtk_plugin.cpp, lines 334-351: the rejection loop
`for (i = 0, iteration_count = 0; i < N && iteration_count < 10*N; iteration_count++)`.
The remaining attempt budget `10*N - iteration_count` is carried as the
structural argument `fuel` (the caller passes `fuel = 10*N` and `t = 0`,
and every iteration increments `t` while consuming one unit of fuel, so
`fuel + t = 10*N` throughout).  A candidate is drawn from the selected
generator; when its signed distance is negative it is stored at index `i`
of the preallocated arrays and `i` is incremented. -/
def sampleLoopAux {G : Type} (N : ℕ) (sdf : Point → ℚ) (draw : G → Point × G) :
    ℕ → ℕ → ℕ → G → List Point → List ℚ → LoopResult G
  | 0, i, t, g, pts, dists => ⟨i, t, g, pts, dists⟩
  | fuel + 1, i, t, g, pts, dists =>
    if i < N then
      if sdf (draw g).1 < 0 then
        sampleLoopAux N sdf draw fuel (i + 1) (t + 1) (draw g).2
          (pts.set i (draw g).1) (dists.set i (sdf (draw g).1))
      else
        sampleLoopAux N sdf draw fuel i (t + 1) (draw g).2 pts dists
    else
      ⟨i, t, g, pts, dists⟩

/-- Number of the first `fuel` candidates produced by `draw` from state `g`
whose signed distance is negative (the candidates the rejection loop would
accept). -/
def negCount {G : Type} (draw : G → Point × G) (sdf : Point → ℚ) : G → ℕ → ℕ
  | _, 0 => 0
  | g, fuel + 1 =>
    (if sdf (draw g).1 < 0 then 1 else 0) + negCount draw sdf (draw g).2 fuel

/-- Everything `vtkCook_inner` stores on `output_polydata`
(mfx_vtk_plugin.cpp, lines 310-362): the point sequence, the parallel
"distance" float array, the cell sequence of the output (never written by
the sampler), whether the give-up warning was printed, the final
`iteration_count` and accepted count `i`, and the returned status. -/
structure SamplerOutput where
  points : List Point
  distances : List ℚ
  cells : List (List ℕ)
  warning : Bool
  iterations : ℕ
  accepted : ℕ
  status : OfxStatus
deriving Repr

/-- The rejection loop of `vtkCook_inner` run from its initial state:
`i = 0`, `iteration_count = 0`, budget `10 * N`, both generators fresh
(`init` is the initial triple of the `AdditiveRecurrence<3>`), arrays
preallocated to `N` entries (`points->SetNumberOfPoints(N)`,
`distance_arr->SetNumberOfTuples(N)`; VTK leaves them uninitialized,
embedded as zero-filled). -/
def loopRun (distribute_uniformly : Bool) (b : Bounds) (alpha init : Point)
    (vtkStream : ℕ → ℚ) (sdf : Point → ℚ) (N : ℕ) : LoopResult GenState :=
  sampleLoopAux N sdf (drawCandidate distribute_uniformly b alpha vtkStream)
    (10 * N) 0 0 (init, 0)
    (List.replicate N ((0 : ℚ), (0 : ℚ), (0 : ℚ))) (List.replicate N (0 : ℚ))

/-- mfx_vtk_plugin.cpp, lines 276-363,
`VtkVolumePointSamplerEffect::vtkCook_inner` after the signed-distance
predicate has been built (the predicate itself, an external
`vtkImplicitPolyDataDistance`, is the abstract parameter `sdf`; the VTK
pseudo-random stream is the abstract parameter `vtkStream`).  After the
loop, when `i < N` the warning is printed and both arrays are truncated to
length `i` (lines 353-357); the cook always returns `kOfxStatOK` (line
362) and never writes any cell of `output_polydata`. -/
def vtkCook_inner (distribute_uniformly : Bool) (b : Bounds) (alpha init : Point)
    (vtkStream : ℕ → ℚ) (sdf : Point → ℚ) (N : ℕ) : SamplerOutput :=
  let r := loopRun distribute_uniformly b alpha init vtkStream sdf N
  if r.i < N then
    { points := r.pts.take r.i
      distances := r.dists.take r.i
      cells := []
      warning := true
      iterations := r.t
      accepted := r.i
      status := OfxStatus.kOfxStatOK }
  else
    { points := r.pts
      distances := r.dists
      cells := []
      warning := false
      iterations := r.t
      accepted := r.i
      status := OfxStatus.kOfxStatOK }

/-- Default entry of the preallocated point array. -/
def ptDefault : Point := ((0 : ℚ), (0 : ℚ), (0 : ℚ))

lemma sampleLoop_len {G : Type} (N : ℕ) (sdf : Point → ℚ) (draw : G → Point × G)
    (fuel : ℕ) : ∀ (i t : ℕ) (g : G) (pts : List Point) (dists : List ℚ),
    (sampleLoopAux N sdf draw fuel i t g pts dists).pts.length = pts.length ∧
    (sampleLoopAux N sdf draw fuel i t g pts dists).dists.length = dists.length := by
  induction fuel with
  | zero =>
    intro i t g pts dists
    exact ⟨rfl, rfl⟩
  | succ fuel ih =>
    intro i t g pts dists
    simp only [sampleLoopAux]
    by_cases h : i < N
    · rw [if_pos h]
      by_cases hd : sdf (draw g).1 < 0
      · rw [if_pos hd]
        rcases ih (i + 1) (t + 1) (draw g).2 (pts.set i (draw g).1)
          (dists.set i (sdf (draw g).1)) with ⟨h1, h2⟩
        rw [h1, h2]
        simp
      · rw [if_neg hd]
        exact ih _ _ _ _ _
    · rw [if_neg h]
      exact ⟨rfl, rfl⟩

lemma sampleLoop_i_le {G : Type} (N : ℕ) (sdf : Point → ℚ) (draw : G → Point × G)
    (fuel : ℕ) : ∀ (i t : ℕ) (g : G) (pts : List Point) (dists : List ℚ), i ≤ N →
    (sampleLoopAux N sdf draw fuel i t g pts dists).i ≤ N := by
  induction fuel with
  | zero =>
    intro i t g pts dists hi
    exact hi
  | succ fuel ih =>
    intro i t g pts dists hi
    simp only [sampleLoopAux]
    by_cases h : i < N
    · rw [if_pos h]
      by_cases hd : sdf (draw g).1 < 0
      · rw [if_pos hd]
        exact ih _ _ _ _ _ h
      · rw [if_neg hd]
        exact ih _ _ _ _ _ hi
    · rw [if_neg h]
      exact hi

lemma sampleLoop_t_le {G : Type} (N : ℕ) (sdf : Point → ℚ) (draw : G → Point × G)
    (fuel : ℕ) : ∀ (i t : ℕ) (g : G) (pts : List Point) (dists : List ℚ),
    (sampleLoopAux N sdf draw fuel i t g pts dists).t ≤ t + fuel := by
  induction fuel with
  | zero =>
    intro i t g pts dists
    exact Nat.le_refl t
  | succ fuel ih =>
    intro i t g pts dists
    simp only [sampleLoopAux]
    by_cases h : i < N
    · rw [if_pos h]
      by_cases hd : sdf (draw g).1 < 0
      · rw [if_pos hd]
        have := ih (i + 1) (t + 1) (draw g).2 (pts.set i (draw g).1)
          (dists.set i (sdf (draw g).1))
        omega
      · rw [if_neg hd]
        have := ih i (t + 1) (draw g).2 pts dists
        omega
    · rw [if_neg h]
      exact Nat.le_add_right t (fuel + 1)

/-- When the loop ends with fewer than `N` accepted points, it has consumed
the whole attempt budget. -/
lemma sampleLoop_exhaust {G : Type} (N : ℕ) (sdf : Point → ℚ) (draw : G → Point × G)
    (fuel : ℕ) : ∀ (i t : ℕ) (g : G) (pts : List Point) (dists : List ℚ),
    (sampleLoopAux N sdf draw fuel i t g pts dists).i < N →
    (sampleLoopAux N sdf draw fuel i t g pts dists).t = t + fuel := by
  induction fuel with
  | zero =>
    intro i t g pts dists _
    rfl
  | succ fuel ih =>
    intro i t g pts dists hlt
    simp only [sampleLoopAux] at hlt ⊢
    by_cases h : i < N
    · rw [if_pos h] at hlt ⊢
      by_cases hd : sdf (draw g).1 < 0
      · rw [if_pos hd] at hlt ⊢
        have := ih (i + 1) (t + 1) (draw g).2 (pts.set i (draw g).1)
          (dists.set i (sdf (draw g).1)) hlt
        omega
      · rw [if_neg hd] at hlt ⊢
        have := ih i (t + 1) (draw g).2 pts dists hlt
        omega
    · rw [if_neg h] at hlt
      exact absurd hlt h

/-- When the signed distance of every candidate the generator can produce is
nonnegative, the loop accepts nothing and consumes the whole budget. -/
lemma sampleLoop_nonneg {G : Type} (N : ℕ) (sdf : Point → ℚ) (draw : G → Point × G)
    (hsdf : ∀ g : G, 0 ≤ sdf (draw g).1)
    (fuel : ℕ) : ∀ (i t : ℕ) (g : G) (pts : List Point) (dists : List ℚ), i < N →
    (sampleLoopAux N sdf draw fuel i t g pts dists).i = i ∧
    (sampleLoopAux N sdf draw fuel i t g pts dists).t = t + fuel := by
  induction fuel with
  | zero =>
    intro i t g pts dists _
    exact ⟨rfl, rfl⟩
  | succ fuel ih =>
    intro i t g pts dists hi
    simp only [sampleLoopAux]
    rw [if_pos hi]
    have hd : ¬ sdf (draw g).1 < 0 := not_lt.mpr (hsdf g)
    rw [if_neg hd]
    have := ih i (t + 1) (draw g).2 pts dists hi
    omega

/-- When at least `N - i` of the next `fuel` candidates are accepted by the
signed-distance test, the loop reaches the full target count `N`. -/
lemma sampleLoop_reaches {G : Type} (N : ℕ) (sdf : Point → ℚ) (draw : G → Point × G)
    (fuel : ℕ) : ∀ (i t : ℕ) (g : G) (pts : List Point) (dists : List ℚ), i ≤ N →
    N - i ≤ negCount draw sdf g fuel →
    (sampleLoopAux N sdf draw fuel i t g pts dists).i = N := by
  induction fuel with
  | zero =>
    intro i t g pts dists hi hc
    simp only [negCount] at hc
    show i = N
    omega
  | succ fuel ih =>
    intro i t g pts dists hi hc
    simp only [negCount] at hc
    simp only [sampleLoopAux]
    by_cases h : i < N
    · rw [if_pos h]
      by_cases hd : sdf (draw g).1 < 0
      · rw [if_pos hd]
        rw [if_pos hd] at hc
        exact ih (i + 1) _ _ _ _ h (by omega)
      · rw [if_neg hd]
        rw [if_neg hd] at hc
        exact ih i _ _ _ _ hi (by omega)
    · rw [if_neg h]
      show i = N
      omega

/-- Loop invariant: every already-written entry of the output arrays holds a
point with negative signed distance satisfying the candidate property `B`,
paired with exactly its distance value; the loop preserves it. -/
lemma sampleLoop_content {G : Type} (N : ℕ) (sdf : Point → ℚ) (draw : G → Point × G)
    (B : Point → Prop) (hdraw : ∀ g : G, B (draw g).1)
    (fuel : ℕ) : ∀ (i t : ℕ) (g : G) (pts : List Point) (dists : List ℚ),
    i ≤ N → pts.length = N → dists.length = N →
    (∀ k, k < i → sdf (pts.getD k ptDefault) < 0 ∧ B (pts.getD k ptDefault) ∧
        dists.getD k 0 = sdf (pts.getD k ptDefault)) →
    ∀ k, k < (sampleLoopAux N sdf draw fuel i t g pts dists).i →
      sdf ((sampleLoopAux N sdf draw fuel i t g pts dists).pts.getD k ptDefault) < 0 ∧
      B ((sampleLoopAux N sdf draw fuel i t g pts dists).pts.getD k ptDefault) ∧
      (sampleLoopAux N sdf draw fuel i t g pts dists).dists.getD k 0 =
        sdf ((sampleLoopAux N sdf draw fuel i t g pts dists).pts.getD k ptDefault) := by
  induction fuel with
  | zero =>
    intro i t g pts dists _ _ _ hinv k hk
    exact hinv k hk
  | succ fuel ih =>
    intro i t g pts dists hi hlp hld hinv
    simp only [sampleLoopAux]
    by_cases h : i < N
    · rw [if_pos h]
      by_cases hd : sdf (draw g).1 < 0
      · rw [if_pos hd]
        refine ih (i + 1) (t + 1) (draw g).2 _ _ h (by simp [hlp]) (by simp [hld]) ?_
        intro k hk
        rcases Nat.lt_succ_iff_lt_or_eq.mp hk with hk' | hk'
        · have hne : i ≠ k := by omega
          rw [List.getD_eq_getElem?_getD, List.getElem?_set_ne hne,
            List.getD_eq_getElem?_getD, List.getElem?_set_ne hne,
            ← List.getD_eq_getElem?_getD, ← List.getD_eq_getElem?_getD]
          exact hinv k hk'
        · subst hk'
          rw [List.getD_eq_getElem?_getD, List.getElem?_set_self (by omega),
            List.getD_eq_getElem?_getD, List.getElem?_set_self (by omega)]
          exact ⟨hd, hdraw g, rfl⟩
      · rw [if_neg hd]
        exact ih i (t + 1) (draw g).2 pts dists hi hlp hld hinv
    · rw [if_neg h]
      intro k hk
      exact hinv k hk

/-- The values a stream of the VTK pseudo-random sequence can take: VTK's
`vtkMinimalStandardRandomSequence` produces values in [0, 1]. -/
def streamUnit (stream : ℕ → ℚ) : Prop :=
  ∀ k, 0 ≤ stream k ∧ stream k ≤ 1

lemma rangeValue_mem {low high u : ℚ} (h : low ≤ high) (h0 : 0 ≤ u) (h1 : u ≤ 1) :
    low ≤ rangeValue low high u ∧ rangeValue low high u ≤ high := by
  rw [rangeValue]
  constructor
  · nlinarith
  · nlinarith

lemma arNext_unit (alpha s : Point) :
    (0 ≤ (arNext alpha s).1 ∧ (arNext alpha s).1 ≤ 1) ∧
    (0 ≤ (arNext alpha s).2.1 ∧ (arNext alpha s).2.1 ≤ 1) ∧
    (0 ≤ (arNext alpha s).2.2 ∧ (arNext alpha s).2.2 ≤ 1) :=
  ⟨⟨Int.fract_nonneg _, (Int.fract_lt_one _).le⟩,
   ⟨Int.fract_nonneg _, (Int.fract_lt_one _).le⟩,
   ⟨Int.fract_nonneg _, (Int.fract_lt_one _).le⟩⟩

/-- Every candidate drawn by either generator lies in the bounding box. -/
lemma drawCandidate_inBounds (mode : Bool) (b : Bounds) (alpha : Point) (stream : ℕ → ℚ)
    (hb : validBounds b) (hstream : streamUnit stream) :
    ∀ g : GenState, inBounds b (drawCandidate mode b alpha stream g).1 := by
  intro g
  rcases hb with ⟨hx, hy, hz⟩
  cases mode with
  | false =>
    have h0 := hstream g.2
    have h1 := hstream (g.2 + 1)
    have h2 := hstream (g.2 + 2)
    simp only [drawCandidate, Bool.false_eq_true, if_false, inBounds]
    exact ⟨(rangeValue_mem hx h0.1 h0.2).1, (rangeValue_mem hx h0.1 h0.2).2,
           (rangeValue_mem hy h1.1 h1.2).1, (rangeValue_mem hy h1.1 h1.2).2,
           (rangeValue_mem hz h2.1 h2.2).1, (rangeValue_mem hz h2.1 h2.2).2⟩
  | true =>
    have u1 := (arNext_unit alpha g.1).1
    have u2 := (arNext_unit alpha (arNext alpha g.1)).2.1
    have u3 := (arNext_unit alpha (arNext alpha (arNext alpha g.1))).2.2
    simp only [drawCandidate, if_true, inBounds]
    exact ⟨(rangeValue_mem hx u1.1 u1.2).1, (rangeValue_mem hx u1.1 u1.2).2,
           (rangeValue_mem hy u2.1 u2.2).1, (rangeValue_mem hy u2.1 u2.2).2,
           (rangeValue_mem hz u3.1 u3.2).1, (rangeValue_mem hz u3.1 u3.2).2⟩

lemma negCount_all_neg {G : Type} (draw : G → Point × G) (sdf : Point → ℚ)
    (h : ∀ g, sdf (draw g).1 < 0) : ∀ (fuel : ℕ) (g : G), negCount draw sdf g fuel = fuel := by
  intro fuel
  induction fuel with
  | zero =>
    intro g
    rfl
  | succ fuel ih =>
    intro g
    simp only [negCount, if_pos (h g), ih]
    omega

/-- The cook's bookkeeping fields, independent of which branch is taken. -/
lemma vtkCook_inner_eq (mode : Bool) (b : Bounds) (alpha init : Point)
    (stream : ℕ → ℚ) (sdf : Point → ℚ) (N : ℕ) :
    (vtkCook_inner mode b alpha init stream sdf N).iterations =
      (loopRun mode b alpha init stream sdf N).t ∧
    (vtkCook_inner mode b alpha init stream sdf N).accepted =
      (loopRun mode b alpha init stream sdf N).i ∧
    (vtkCook_inner mode b alpha init stream sdf N).status = OfxStatus.kOfxStatOK ∧
    (vtkCook_inner mode b alpha init stream sdf N).cells = [] := by
  simp only [vtkCook_inner]
  by_cases h : (loopRun mode b alpha init stream sdf N).i < N
  · rw [if_pos h]
    exact ⟨rfl, rfl, rfl, rfl⟩
  · rw [if_neg h]
    exact ⟨rfl, rfl, rfl, rfl⟩

lemma vtkCook_inner_truncated (mode : Bool) (b : Bounds) (alpha init : Point)
    (stream : ℕ → ℚ) (sdf : Point → ℚ) (N : ℕ)
    (h : (loopRun mode b alpha init stream sdf N).i < N) :
    vtkCook_inner mode b alpha init stream sdf N =
      { points := (loopRun mode b alpha init stream sdf N).pts.take
          (loopRun mode b alpha init stream sdf N).i
        distances := (loopRun mode b alpha init stream sdf N).dists.take
          (loopRun mode b alpha init stream sdf N).i
        cells := []
        warning := true
        iterations := (loopRun mode b alpha init stream sdf N).t
        accepted := (loopRun mode b alpha init stream sdf N).i
        status := OfxStatus.kOfxStatOK } := by
  simp only [vtkCook_inner]
  rw [if_pos h]

lemma vtkCook_inner_full (mode : Bool) (b : Bounds) (alpha init : Point)
    (stream : ℕ → ℚ) (sdf : Point → ℚ) (N : ℕ)
    (h : ¬ (loopRun mode b alpha init stream sdf N).i < N) :
    vtkCook_inner mode b alpha init stream sdf N =
      { points := (loopRun mode b alpha init stream sdf N).pts
        distances := (loopRun mode b alpha init stream sdf N).dists
        cells := []
        warning := false
        iterations := (loopRun mode b alpha init stream sdf N).t
        accepted := (loopRun mode b alpha init stream sdf N).i
        status := OfxStatus.kOfxStatOK } := by
  simp only [vtkCook_inner]
  rw [if_neg h]

lemma loopRun_len (mode : Bool) (b : Bounds) (alpha init : Point)
    (stream : ℕ → ℚ) (sdf : Point → ℚ) (N : ℕ) :
    (loopRun mode b alpha init stream sdf N).pts.length = N ∧
    (loopRun mode b alpha init stream sdf N).dists.length = N := by
  have h := sampleLoop_len N sdf (drawCandidate mode b alpha stream) (10 * N) 0 0
    (init, 0) (List.replicate N ((0 : ℚ), (0 : ℚ), (0 : ℚ))) (List.replicate N (0 : ℚ))
  rw [loopRun]
  simpa using h

lemma loopRun_i_le (mode : Bool) (b : Bounds) (alpha init : Point)
    (stream : ℕ → ℚ) (sdf : Point → ℚ) (N : ℕ) :
    (loopRun mode b alpha init stream sdf N).i ≤ N := by
  rw [loopRun]
  exact sampleLoop_i_le N sdf _ (10 * N) 0 0 (init, 0) _ _ (Nat.zero_le N)

/-- Claim C7: with distributeUniformly = true the candidate generator is the
deterministic additive-recurrence sequence, which consumes nothing from the
pseudo-random stream; hence two cooks on identical input and parameters
produce identical outputs — here stated as independence of the entire
output from the VTK pseudo-random stream, the only entropy source of the
embedded cook. -/
theorem volume_sampler_uniform_deterministic (b : Bounds) (alpha init : Point)
    (stream1 stream2 : ℕ → ℚ) (sdf : Point → ℚ) (N : ℕ) :
    vtkCook_inner true b alpha init stream1 sdf N =
    vtkCook_inner true b alpha init stream2 sdf N := by
  have hdraw : drawCandidate true b alpha stream1 = drawCandidate true b alpha stream2 := by
    funext g
    simp [drawCandidate]
  simp only [vtkCook_inner, loopRun, hdraw]

/-- Claim C1: the rejection loop performs at most 10·N attempts and accepts
at most N points, for every input; and when the signed-distance predicate
is nowhere negative on the bounding box (e.g. a boundary with zero faces),
the loop terminates after exactly 10·N attempts with zero accepted points —
in particular fewer than N for N = 1000. -/
theorem volume_sampler_budget (mode : Bool) (b : Bounds) (alpha init : Point)
    (stream : ℕ → ℚ) (sdf : Point → ℚ) (N : ℕ) :
    (vtkCook_inner mode b alpha init stream sdf N).iterations ≤ 10 * N ∧
    (vtkCook_inner mode b alpha init stream sdf N).accepted ≤ N ∧
    (validBounds b → streamUnit stream → (∀ p : Point, inBounds b p → 0 ≤ sdf p) →
      (vtkCook_inner mode b alpha init stream sdf N).iterations = 10 * N ∧
      (vtkCook_inner mode b alpha init stream sdf N).accepted = 0 ∧
      (N = 1000 → (vtkCook_inner mode b alpha init stream sdf N).accepted < N)) := by
  obtain ⟨hit, hacc, _, _⟩ := vtkCook_inner_eq mode b alpha init stream sdf N
  refine ⟨?_, ?_, ?_⟩
  · rw [hit, loopRun]
    have := sampleLoop_t_le N sdf (drawCandidate mode b alpha stream) (10 * N) 0 0
      (init, 0) (List.replicate N ((0 : ℚ), (0 : ℚ), (0 : ℚ))) (List.replicate N (0 : ℚ))
    omega
  · rw [hacc]
    exact loopRun_i_le mode b alpha init stream sdf N
  · intro hb hs hsdf
    have hd : ∀ g : GenState, 0 ≤ sdf (drawCandidate mode b alpha stream g).1 :=
      fun g => hsdf _ (drawCandidate_inBounds mode b alpha stream hb hs g)
    rcases Nat.eq_zero_or_pos N with hN | hN
    · subst hN
      refine ⟨?_, ?_, ?_⟩
      · rw [hit]
        rfl
      · rw [hacc]
        rfl
      · intro habs
        exact absurd habs (by norm_num)
    · have key := sampleLoop_nonneg N sdf (drawCandidate mode b alpha stream) hd (10 * N) 0 0
        (init, 0) (List.replicate N ((0 : ℚ), (0 : ℚ), (0 : ℚ))) (List.replicate N (0 : ℚ)) hN
      refine ⟨?_, ?_, ?_⟩
      · rw [hit, loopRun]
        omega
      · rw [hacc, loopRun]
        exact key.1
      · intro _
        rw [hacc, loopRun, key.1]
        exact hN

/-- Claim C2: when the attempt budget is exhausted with fewer than N accepted
points, the output point and distance sequences are both truncated to the
accepted count, the give-up warning is printed, and the cook still returns
the success status `kOfxStatOK` after the full 10·N attempts. -/
theorem volume_sampler_truncation (mode : Bool) (b : Bounds) (alpha init : Point)
    (stream : ℕ → ℚ) (sdf : Point → ℚ) (N : ℕ)
    (h : (vtkCook_inner mode b alpha init stream sdf N).accepted < N) :
    (vtkCook_inner mode b alpha init stream sdf N).points.length =
      (vtkCook_inner mode b alpha init stream sdf N).accepted ∧
    (vtkCook_inner mode b alpha init stream sdf N).distances.length =
      (vtkCook_inner mode b alpha init stream sdf N).accepted ∧
    (vtkCook_inner mode b alpha init stream sdf N).warning = true ∧
    (vtkCook_inner mode b alpha init stream sdf N).status = OfxStatus.kOfxStatOK ∧
    (vtkCook_inner mode b alpha init stream sdf N).iterations = 10 * N := by
  obtain ⟨_, hacc, _, _⟩ := vtkCook_inner_eq mode b alpha init stream sdf N
  rw [hacc] at h
  obtain ⟨hlp, hld⟩ := loopRun_len mode b alpha init stream sdf N
  have hti : (loopRun mode b alpha init stream sdf N).t = 10 * N := by
    have := sampleLoop_exhaust N sdf (drawCandidate mode b alpha stream) (10 * N) 0 0
      (init, 0) (List.replicate N ((0 : ℚ), (0 : ℚ), (0 : ℚ))) (List.replicate N (0 : ℚ))
    rw [loopRun] at h ⊢
    have := this h
    omega
  rw [vtkCook_inner_truncated mode b alpha init stream sdf N h]
  refine ⟨?_, ?_, rfl, rfl, hti⟩
  · simp only [List.length_take, hlp]
    omega
  · simp only [List.length_take, hld]
    omega

/-- Claim C6: with a requested point count of zero, the cook returns empty
point and distance sequences, success status, zero attempts and no
warning. -/
theorem volume_sampler_zero_points (mode : Bool) (b : Bounds) (alpha init : Point)
    (stream : ℕ → ℚ) (sdf : Point → ℚ) :
    vtkCook_inner mode b alpha init stream sdf 0 =
      { points := []
        distances := []
        cells := []
        warning := false
        iterations := 0
        accepted := 0
        status := OfxStatus.kOfxStatOK } := rfl

lemma getD_eq_getElem {α : Type} (l : List α) (k : ℕ) (d : α) (h : k < l.length) :
    l.getD k d = l[k] := by
  rw [List.getD_eq_getElem?_getD, List.getElem?_eq_getElem h]
  rfl

lemma loopRun_content (mode : Bool) (b : Bounds) (alpha init : Point)
    (stream : ℕ → ℚ) (sdf : Point → ℚ) (N : ℕ)
    (hb : validBounds b) (hs : streamUnit stream) :
    ∀ k, k < (loopRun mode b alpha init stream sdf N).i →
      sdf ((loopRun mode b alpha init stream sdf N).pts.getD k ptDefault) < 0 ∧
      inBounds b ((loopRun mode b alpha init stream sdf N).pts.getD k ptDefault) ∧
      (loopRun mode b alpha init stream sdf N).dists.getD k 0 =
        sdf ((loopRun mode b alpha init stream sdf N).pts.getD k ptDefault) := by
  have h := sampleLoop_content N sdf (drawCandidate mode b alpha stream) (inBounds b)
    (drawCandidate_inBounds mode b alpha stream hb hs) (10 * N) 0 0 (init, 0)
    (List.replicate N ((0 : ℚ), (0 : ℚ), (0 : ℚ))) (List.replicate N (0 : ℚ))
    (Nat.zero_le N) (by simp) (by simp)
    (fun k hk => absurd hk (Nat.not_lt_zero k))
  rw [loopRun]
  exact h

/-- Claim C5: every accepted point has strictly negative signed distance and
lies in the bounding box, the distance sequence is the pointwise signed
distance of the point sequence, and when at least N of the 10·N candidates
the generator would produce are inside the solid, the output holds exactly
N points. -/
theorem volume_sampler_accepted_points (mode : Bool) (b : Bounds) (alpha init : Point)
    (stream : ℕ → ℚ) (sdf : Point → ℚ) (N : ℕ)
    (hb : validBounds b) (hs : streamUnit stream) :
    (∀ p ∈ (vtkCook_inner mode b alpha init stream sdf N).points, sdf p < 0 ∧ inBounds b p) ∧
    (vtkCook_inner mode b alpha init stream sdf N).distances =
      (vtkCook_inner mode b alpha init stream sdf N).points.map sdf ∧
    (N ≤ negCount (drawCandidate mode b alpha stream) sdf (init, 0) (10 * N) →
      (vtkCook_inner mode b alpha init stream sdf N).points.length = N ∧
      (vtkCook_inner mode b alpha init stream sdf N).accepted = N) := by
  obtain ⟨hlp, hld⟩ := loopRun_len mode b alpha init stream sdf N
  have hile := loopRun_i_le mode b alpha init stream sdf N
  have hcont := loopRun_content mode b alpha init stream sdf N hb hs
  have hreach : N ≤ negCount (drawCandidate mode b alpha stream) sdf (init, 0) (10 * N) →
      (loopRun mode b alpha init stream sdf N).i = N := by
    intro hneg
    rw [loopRun]
    exact sampleLoop_reaches N sdf (drawCandidate mode b alpha stream) (10 * N) 0 0
      (init, 0) _ _ (Nat.zero_le N) (by omega)
  by_cases hc : (loopRun mode b alpha init stream sdf N).i < N
  · rw [vtkCook_inner_truncated mode b alpha init stream sdf N hc]
    refine ⟨?_, ?_, ?_⟩
    · intro p hp
      rw [List.mem_iff_getElem] at hp
      obtain ⟨k, hk, he⟩ := hp
      have hk' : k < (loopRun mode b alpha init stream sdf N).i := by
        simp only [List.length_take, hlp] at hk
        omega
      have hkN : k < (loopRun mode b alpha init stream sdf N).pts.length := by
        rw [hlp]
        omega
      have h1 := hcont k hk'
      rw [getD_eq_getElem _ _ _ hkN, getD_eq_getElem _ _ _ (by rw [hld]; omega)] at h1
      rw [List.getElem_take] at he
      rw [← he]
      exact ⟨h1.1, h1.2.1⟩
    · apply List.ext_getElem
      · simp [hlp, hld]
      · intro k h1 h2
        have hk' : k < (loopRun mode b alpha init stream sdf N).i := by
          simp only [List.length_take, hld] at h1
          omega
        have hkp : k < (loopRun mode b alpha init stream sdf N).pts.length := by
          rw [hlp]
          omega
        have hkd : k < (loopRun mode b alpha init stream sdf N).dists.length := by
          rw [hld]
          omega
        have h3 := (hcont k hk').2.2
        rw [getD_eq_getElem _ _ _ hkp, getD_eq_getElem _ _ _ hkd] at h3
        rw [List.getElem_map, List.getElem_take, List.getElem_take]
        exact h3
    · intro hneg
      exact absurd (hreach hneg) (Nat.ne_of_lt hc)
  · have hieq : (loopRun mode b alpha init stream sdf N).i = N := by omega
    rw [vtkCook_inner_full mode b alpha init stream sdf N hc]
    refine ⟨?_, ?_, ?_⟩
    · intro p hp
      rw [List.mem_iff_getElem] at hp
      obtain ⟨k, hk, he⟩ := hp
      have hk' : k < (loopRun mode b alpha init stream sdf N).i := by
        rw [hieq, ← hlp]
        exact hk
      have h1 := hcont k hk'
      rw [getD_eq_getElem _ _ _ hk, getD_eq_getElem _ _ _ (by rw [hld, ← hlp]; exact hk)] at h1
      rw [← he]
      exact ⟨h1.1, h1.2.1⟩
    · apply List.ext_getElem
      · rw [List.length_map, hlp, hld]
      · intro k h1 h2
        have hk' : k < (loopRun mode b alpha init stream sdf N).i := by
          rw [hieq, ← hld]
          exact h1
        have hkp : k < (loopRun mode b alpha init stream sdf N).pts.length := by
          rw [hlp, ← hld]
          exact h1
        have h3 := (hcont k hk').2.2
        rw [getD_eq_getElem _ _ _ hkp, getD_eq_getElem _ _ _ h1] at h3
        rw [List.getElem_map]
        exact h3
    · intro _
      exact ⟨hlp, hieq⟩

/-- The unit cube as a concrete bounding box for the witnesses. -/
def unitBounds : Bounds := ⟨0, 1, 0, 1, 0, 1⟩

lemma unitBounds_valid : validBounds unitBounds := by
  refine ⟨?_, ?_, ?_⟩ <;> norm_num [unitBounds]

lemma streamHalf_unit : streamUnit (fun _ => 1 / 2) := by
  intro k
  norm_num

/-- Witness for C1: a predicate that is nowhere negative (constant 1), the
claim's pathological N = 1000; the budget is fully consumed with zero
points accepted. -/
theorem volume_sampler_budget_witness :
    (validBounds unitBounds ∧ streamUnit (fun _ => 1 / 2) ∧
      (∀ p : Point, inBounds unitBounds p → 0 ≤ (fun _ : Point => (1 : ℚ)) p)) ∧
    ((vtkCook_inner true unitBounds ptDefault ptDefault (fun _ => 1 / 2)
        (fun _ : Point => (1 : ℚ)) 1000).iterations = 10 * 1000 ∧
     (vtkCook_inner true unitBounds ptDefault ptDefault (fun _ => 1 / 2)
        (fun _ : Point => (1 : ℚ)) 1000).accepted = 0 ∧
     (1000 = 1000 → (vtkCook_inner true unitBounds ptDefault ptDefault (fun _ => 1 / 2)
        (fun _ : Point => (1 : ℚ)) 1000).accepted < 1000)) := by
  have hf : ∀ p : Point, inBounds unitBounds p → 0 ≤ (fun _ : Point => (1 : ℚ)) p := by
    intro p _
    norm_num
  exact ⟨⟨unitBounds_valid, streamHalf_unit, hf⟩,
    (volume_sampler_budget true unitBounds ptDefault ptDefault (fun _ => 1 / 2)
      (fun _ : Point => (1 : ℚ)) 1000).2.2 unitBounds_valid streamHalf_unit hf⟩

/-- Witness for C2: requesting one point of a solid the predicate never
reports as inside exhausts the budget; the truncation and success-status
conclusions follow from the claim theorem. -/
theorem volume_sampler_truncation_witness :
    (vtkCook_inner true unitBounds ptDefault ptDefault (fun _ => 1 / 2)
      (fun _ : Point => (1 : ℚ)) 1).accepted < 1 ∧
    ((vtkCook_inner true unitBounds ptDefault ptDefault (fun _ => 1 / 2)
        (fun _ : Point => (1 : ℚ)) 1).points.length =
      (vtkCook_inner true unitBounds ptDefault ptDefault (fun _ => 1 / 2)
        (fun _ : Point => (1 : ℚ)) 1).accepted ∧
     (vtkCook_inner true unitBounds ptDefault ptDefault (fun _ => 1 / 2)
        (fun _ : Point => (1 : ℚ)) 1).distances.length =
      (vtkCook_inner true unitBounds ptDefault ptDefault (fun _ => 1 / 2)
        (fun _ : Point => (1 : ℚ)) 1).accepted ∧
     (vtkCook_inner true unitBounds ptDefault ptDefault (fun _ => 1 / 2)
        (fun _ : Point => (1 : ℚ)) 1).warning = true ∧
     (vtkCook_inner true unitBounds ptDefault ptDefault (fun _ => 1 / 2)
        (fun _ : Point => (1 : ℚ)) 1).status = OfxStatus.kOfxStatOK ∧
     (vtkCook_inner true unitBounds ptDefault ptDefault (fun _ => 1 / 2)
        (fun _ : Point => (1 : ℚ)) 1).iterations = 10 * 1) := by
  have h : (vtkCook_inner true unitBounds ptDefault ptDefault (fun _ => 1 / 2)
      (fun _ : Point => (1 : ℚ)) 1).accepted < 1 := by
    have hd : ∀ g : GenState,
        0 ≤ (fun _ : Point => (1 : ℚ))
          (drawCandidate true unitBounds ptDefault (fun _ => 1 / 2) g).1 := by
      intro g
      norm_num
    have key := sampleLoop_nonneg 1 (fun _ : Point => (1 : ℚ))
      (drawCandidate true unitBounds ptDefault (fun _ => 1 / 2)) hd (10 * 1) 0 0
      (ptDefault, 0) (List.replicate 1 ((0 : ℚ), (0 : ℚ), (0 : ℚ)))
      (List.replicate 1 (0 : ℚ)) (by norm_num)
    have hacc := (vtkCook_inner_eq true unitBounds ptDefault ptDefault (fun _ => 1 / 2)
      (fun _ : Point => (1 : ℚ)) 1).2.1
    rw [hacc, loopRun, key.1]
    norm_num
  exact ⟨h, volume_sampler_truncation true unitBounds ptDefault ptDefault (fun _ => 1 / 2)
    (fun _ : Point => (1 : ℚ)) 1 h⟩

/-- Witness for C5 at the claim's example size N = 200: a predicate constant
at -1 (every candidate inside), uniform distribution; all 2000 budgeted
candidates are inside, so the output holds exactly 200 points. -/
theorem volume_sampler_accepted_points_witness :
    (validBounds unitBounds ∧ streamUnit (fun _ => 1 / 2) ∧
      200 ≤ negCount (drawCandidate true unitBounds ptDefault (fun _ => 1 / 2))
        (fun _ : Point => (-1 : ℚ)) (ptDefault, 0) (10 * 200)) ∧
    ((vtkCook_inner true unitBounds ptDefault ptDefault (fun _ => 1 / 2)
        (fun _ : Point => (-1 : ℚ)) 200).points.length = 200 ∧
     (vtkCook_inner true unitBounds ptDefault ptDefault (fun _ => 1 / 2)
        (fun _ : Point => (-1 : ℚ)) 200).accepted = 200) := by
  have hneg : 200 ≤ negCount (drawCandidate true unitBounds ptDefault (fun _ => 1 / 2))
      (fun _ : Point => (-1 : ℚ)) (ptDefault, 0) (10 * 200) := by
    rw [negCount_all_neg _ _ (fun g => by norm_num) (10 * 200) (ptDefault, 0)]
    norm_num
  exact ⟨⟨unitBounds_valid, streamHalf_unit, hneg⟩,
    (volume_sampler_accepted_points true unitBounds ptDefault ptDefault (fun _ => 1 / 2)
      (fun _ : Point => (-1 : ℚ)) 200 unitBounds_valid streamHalf_unit).2.2 hneg⟩

/-- Claim C9 is violated by the volume sampler (code bug): for every input
the embedded cook leaves the output cell sequence empty while returning the
success status, and at a concrete input it delivers a nonempty point
sequence with no cells at all — the output is a bare point cloud, not a
fully formed mesh with points and cells. -/
theorem volume_sampler_output_no_cells :
    (∀ (mode : Bool) (b : Bounds) (alpha init : Point) (stream : ℕ → ℚ)
        (sdf : Point → ℚ) (N : ℕ),
      (vtkCook_inner mode b alpha init stream sdf N).cells = [] ∧
      (vtkCook_inner mode b alpha init stream sdf N).status = OfxStatus.kOfxStatOK) ∧
    ((vtkCook_inner true unitBounds ptDefault ptDefault (fun _ => 1 / 2)
        (fun _ : Point => (-1 : ℚ)) 1).points.length = 1 ∧
     (vtkCook_inner true unitBounds ptDefault ptDefault (fun _ => 1 / 2)
        (fun _ : Point => (-1 : ℚ)) 1).cells = []) := by
  constructor
  · intro mode b alpha init stream sdf N
    obtain ⟨_, _, hst, hcl⟩ := vtkCook_inner_eq mode b alpha init stream sdf N
    exact ⟨hcl, hst⟩
  · have hreach : (loopRun true unitBounds ptDefault ptDefault (fun _ => 1 / 2)
        (fun _ : Point => (-1 : ℚ)) 1).i = 1 := by
      rw [loopRun]
      apply sampleLoop_reaches 1 (fun _ : Point => (-1 : ℚ))
        (drawCandidate true unitBounds ptDefault (fun _ => 1 / 2)) (10 * 1) 0 0
        (ptDefault, 0) _ _ (Nat.zero_le 1)
      rw [negCount_all_neg _ _ (fun g => by norm_num) (10 * 1) (ptDefault, 0)]
      norm_num
    have hfull := vtkCook_inner_full true unitBounds ptDefault ptDefault (fun _ => 1 / 2)
      (fun _ : Point => (-1 : ℚ)) 1 (by rw [hreach]; omega)
    rw [hfull]
    exact ⟨(loopRun_len true unitBounds ptDefault ptDefault (fun _ => 1 / 2)
      (fun _ : Point => (-1 : ℚ)) 1).1, rfl⟩

/-- A polygonal mesh as exchanged across the plugin boundary (spec section
3): an ordered sequence of point positions plus a sequence of cells given
as point-index lists. -/
structure Mesh where
  points : List Point
  cells : List (List ℕ)
deriving DecidableEq, Repr

/-- Fan triangulation of one polygonal cell: a cell `v0 :: rest` becomes the
triangles `[v0, rest k, rest (k+1)]`; cells with fewer than three vertices
yield no polygon.  This is the standard behavior of the external
`vtkTriangleFilter` collaborator; the claim theorem below only uses the
property that every produced cell is a triangle, which it also takes as an
explicit hypothesis, so it holds for any triangulation with that
property. -/
def fanCell (c : List ℕ) : List (List ℕ) :=
  match c with
  | [] => []
  | v0 :: rest => (rest.zip rest.tail).map fun ab => [v0, ab.1, ab.2]

/-- Triangulation of a mesh: points unchanged, every cell fan-triangulated. -/
def fanTriangulate (m : Mesh) : Mesh :=
  { points := m.points, cells := m.cells.flatMap fanCell }

/-- mfx_vtk_plugin.cpp, lines 645-679, `VtkDecimateProEffect::vtkCook`: the
cook always pipes the input mesh through `vtkTriangleFilter` and then
`vtkDecimatePro` with the given target reduction; both external
collaborators are abstract parameters `tri` and `dec`. -/
def cookDecimatePro (tri : Mesh → Mesh) (dec : ℚ → Mesh → Mesh)
    (target_red : ℚ) (m : Mesh) : Mesh :=
  dec target_red (tri m)

/-- A mesh consisting of four points and one quadrilateral cell. -/
def quadMesh : Mesh :=
  { points := [((0 : ℚ), (0 : ℚ), (0 : ℚ)), ((1 : ℚ), (0 : ℚ), (0 : ℚ)),
               ((1 : ℚ), (1 : ℚ), (0 : ℚ)), ((0 : ℚ), (1 : ℚ), (0 : ℚ))]
    cells := [[0, 1, 2, 3]] }

lemma fanTriangulate_three : ∀ m : Mesh, ∀ c ∈ (fanTriangulate m).cells, c.length = 3 := by
  intro m c hc
  simp only [fanTriangulate, List.mem_flatMap] at hc
  obtain ⟨cell, _, hmem⟩ := hc
  cases cell with
  | nil =>
    simp [fanCell] at hmem
  | cons v0 rest =>
    simp only [fanCell, List.mem_map] at hmem
    obtain ⟨ab, _, he⟩ := hmem
    rw [← he]
    rfl

/-- Claim C8 is violated for non-triangle inputs (code bug): with DecimatePro
target reduction 0 the identity check returns true, yet `cook` first
triangulates the input; for every triangulation producing only triangle
cells and every decimation acting as the identity at reduction 0, cooking a
single-quad mesh cannot reproduce the input's cell sequence, so the cooked
output differs from the input. -/
theorem identity_cook_retriangulates (tri : Mesh → Mesh) (dec : ℚ → Mesh → Mesh)
    (htri : ∀ m : Mesh, ∀ c ∈ (tri m).cells, c.length = 3)
    (hdec : ∀ m : Mesh, dec 0 m = m) :
    vtkIsIdentity_decimate_pro 0 = true ∧
    cookDecimatePro tri dec 0 quadMesh ≠ quadMesh := by
  constructor
  · have hlt : ¬ DBL_EPSILON ≤ (0 : ℚ) := by
      rw [DBL_EPSILON]
      norm_num
    rw [vtkIsIdentity_decimate_pro, is_positive_double]
    simp [hlt]
  · intro h
    rw [cookDecimatePro, hdec] at h
    have h4 := htri quadMesh [0, 1, 2, 3]
    rw [h] at h4
    have := h4 (by simp [quadMesh])
    simp at this

/-- Witness for C8: instantiated with the concrete fan triangulation and the
decimation that is the identity at every reduction. -/
theorem identity_cook_retriangulates_witness :
    (∀ m : Mesh, ∀ c ∈ (fanTriangulate m).cells, c.length = 3) ∧
    (∀ m : Mesh, (fun (_ : ℚ) (m2 : Mesh) => m2) 0 m = m) ∧
    (vtkIsIdentity_decimate_pro 0 = true ∧
      cookDecimatePro fanTriangulate (fun (_ : ℚ) (m2 : Mesh) => m2) 0 quadMesh ≠ quadMesh) := by
  exact ⟨fanTriangulate_three, fun m => rfl,
    identity_cook_retriangulates fanTriangulate (fun (_ : ℚ) (m2 : Mesh) => m2)
      fanTriangulate_three (fun m => rfl)⟩

end MfxVtk
